import Mathlib

/-!
Shallow embedding of the MicroBit cellular-automaton firmware (`src/main.rs`)
and verification of its specification claims.

Cells are `u8` values modelled as `Nat` with explicit `% 256` at the points
where the source casts or wraps.  The 5x5 grid is a function
`Fin 5 → Fin 5 → Nat`; imperative element assignment is modelled by
`writeCell` and the row-major double loops by folds over `List.finRange 5`.
-/

namespace MicroBit

/-- A 5x5 grid of `u8` cells, as in `[[u8; 5]; 5]`. -/
abbrev Grid := Fin 5 → Fin 5 → Nat

/-- Imperative assignment `g[r][c] = v`. -/
def writeCell (g : Grid) (r c : Fin 5) (v : Nat) : Grid :=
  fun r' c' => if r' = r then (if c' = c then v else g r' c') else g r' c'

/-- The 8-element neighbor array built inline in `update_automata`
(`src/main.rs` lines 61-79), in source order: top-left, top, top-right,
left, right, bottom-left, bottom, bottom-right, with previous index
`(i + 4) % 5` and next index `(i + 1) % 5` on `usize`. -/
def neighbors (g : Grid) (row col : Fin 5) : List Nat :=
  [ g ⟨(row.val + 4) % 5, by omega⟩ ⟨(col.val + 4) % 5, by omega⟩,
    g ⟨(row.val + 4) % 5, by omega⟩ col,
    g ⟨(row.val + 4) % 5, by omega⟩ ⟨(col.val + 1) % 5, by omega⟩,
    g row ⟨(col.val + 4) % 5, by omega⟩,
    g row ⟨(col.val + 1) % 5, by omega⟩,
    g ⟨(row.val + 1) % 5, by omega⟩ ⟨(col.val + 4) % 5, by omega⟩,
    g ⟨(row.val + 1) % 5, by omega⟩ col,
    g ⟨(row.val + 1) % 5, by omega⟩ ⟨(col.val + 1) % 5, by omega⟩ ]

/-- `conway_transitions` from `src/main.rs` lines 84-92.  The Rust `match`
on `(center_cell, live_neighbor_count)` has arms `(0, 3) => 1`,
`(_, 2..=3) => 1`, `_ => 0`; the range pattern is expanded into two arms. -/
def conway_transitions (center_cell : Nat) (neighbors : List Nat) : Nat :=
  let live_neighbor_count := (neighbors.filter (fun n => n ≠ 0)).length
  match center_cell, live_neighbor_count with
  | 0, 3 => 1
  | _, 2 => 1
  | _, 3 => 1
  | _, _ => 0

/-- `update_automata` from `src/main.rs` lines 55-82: `result` starts as a
copy of `automata`, then the row-major double loop overwrites every cell
with the transition function applied to the cell and its neighbor array,
both read from the original `automata`. -/
def update_automata (automata : Grid) (transition_function : Nat → List Nat → Nat) : Grid :=
  (List.finRange 5).foldl (fun result row =>
    (List.finRange 5).foldl (fun result col =>
      writeCell result row col
        (transition_function (automata row col) (neighbors automata row col))) result)
    automata

/-- `random_automata` from `src/main.rs` lines 35-53, as a pure function of
the prior `SEED` value (the source keeps the seed in a `static mut u16`).
`square` is the `u32` product `SEED as u32 * SEED as u32`; the new seed is
`((square << 8) >> 16) as u16`; the row-major loop extracts
`((square & mask) >> (5*r + c)) as u8` while `mask` doubles (`mask <<= 1`)
once per cell, starting from 1.  Returns the produced grid and new seed.
`rand_grid` is the row-major bit-extraction loop over `square`. -/
def cellIndices : List (Fin 5 × Fin 5) :=
  (List.finRange 5).flatMap (fun r => (List.finRange 5).map (fun c => (r, c)))

def rand_loop (square : Nat) : List (Fin 5 × Fin 5) → Grid → Nat → Grid
  | [], result, _ => result
  | (r, c) :: rest, result, mask =>
      rand_loop square rest
        (writeCell result r c (((square &&& mask) >>> (5 * r.val + c.val)) % 256))
        ((mask * 2) % 4294967296)

def rand_grid (square : Nat) : Grid :=
  rand_loop square cellIndices (fun _ _ => 0) 1

def random_automata (seed : Nat) : Grid × Nat :=
  let square := (seed * seed) % 4294967296
  (rand_grid square, (((square * 256) % 4294967296) / 65536) % 65536)

/-- `draw` from `src/main.rs` lines 206-214, modelled as the frame actually
submitted to the display: every cell multiplied by `brightness` in `u8`
arithmetic (wrapping modelled as `% 256`). -/
def draw (automata : Grid) (brightness : Nat) : Grid :=
  fun r c => (automata r c * brightness) % 256

/-- The live-neighbor count used by `conway_transitions`:
`neighbors.iter().filter(|n| **n != 0).count()`. -/
def liveCount (neighbors : List Nat) : Nat :=
  (neighbors.filter (fun n => n ≠ 0)).length

/-- "Previous" toroidal index, `(index + 4) % 5`, as in the spec's
ToroidalGrid description. -/
def prevIdx (i : Fin 5) : Fin 5 := ⟨(i.val + 4) % 5, by omega⟩

/-- "Next" toroidal index, `(index + 1) % 5`. -/
def nextIdx (i : Fin 5) : Fin 5 := ⟨(i.val + 1) % 5, by omega⟩

/-! ## The foreground loop of `main` (`src/main.rs` lines 127-203)

The loop polls two buttons and, on a qualifying edge, reseeds, single-steps,
or toggles run/pause while enabling/disabling the RTC0 tick timer.  One loop
iteration is modelled as a deterministic transition on an explicit machine
state, parameterized by the outcome of the four hardware pin reads the body
can perform (`is_low` for A and B in the state branches, `is_high` for A and
B at the bottom).  A read result is `Option Bool`: `some v` for `Ok(v)` and
`none` for `Err(_)`; the code acts only on `Ok(true)`. -/

/-- The run-state enum `State` of `src/main.rs`. -/
inductive State
  | Running
  | Paused
deriving DecidableEq

/-- Outcomes of the four pin reads one loop iteration can perform. -/
structure Reads where
  aLow : Option Bool
  bLow : Option Bool
  aHigh : Option Bool
  bHigh : Option Bool
deriving DecidableEq

/-- The mutable state the loop body touches: the foreground locals
(`state`, `a_pressed`, `b_pressed`, `automata`, the seeder's `SEED`), the
RTC0 handle (counter enabled flag and pending tick event flag), the shared
`IMAGE` static, and the frame last submitted to the display by `draw`. -/
structure MachineState where
  state : State
  a_pressed : Bool
  b_pressed : Bool
  automata : Grid
  seed : Nat
  counterEnabled : Bool
  eventPending : Bool
  image : Grid
  displayed : Grid

/-- One iteration of the foreground `loop` in `main`, returning the next
machine state together with how many times the button-A action and the
button-B action ran in this iteration (each 0 or 1).  Mirrors the source:
in `Paused`, B (if unlatched and reading `Ok(true)`) advances one
generation, stores it into `IMAGE`, clears the tick event and draws; A
re-enables the counter and switches to `Running`.  In `Running`, B reseeds
from the seeder, clears the tick event and draws; A disables the counter,
clears the tick event and switches to `Paused`.  At the bottom, an
`Ok(true)` from `is_high` clears the corresponding latch. -/
def step (s : MachineState) (rd : Reads) : MachineState × Nat × Nat :=
  let t :=
    match s.state with
    | State.Paused =>
      let tB :=
        if s.b_pressed = false ∧ rd.bLow = some true then
          let automata := update_automata s.automata conway_transitions
          (({ s with b_pressed := true, automata := automata, image := automata,
                     eventPending := false,
                     displayed := draw automata 7 } : MachineState), (1 : Nat))
        else (s, 0)
      let tA :=
        if tB.1.a_pressed = false ∧ rd.aLow = some true then
          (({ tB.1 with a_pressed := true, counterEnabled := true,
                        state := State.Running } : MachineState), (1 : Nat))
        else (tB.1, 0)
      (tA.1, tA.2, tB.2)
    | State.Running =>
      let tB :=
        if s.b_pressed = false ∧ rd.bLow = some true then
          let p := random_automata s.seed
          (({ s with b_pressed := true, automata := p.1, seed := p.2, image := p.1,
                     eventPending := false,
                     displayed := draw p.1 7 } : MachineState), (1 : Nat))
        else (s, 0)
      let tA :=
        if tB.1.a_pressed = false ∧ rd.aLow = some true then
          (({ tB.1 with a_pressed := true, counterEnabled := false,
                        eventPending := false, state := State.Paused } : MachineState), (1 : Nat))
        else (tB.1, 0)
      (tA.1, tA.2, tB.2)
  let s2 := if rd.aHigh = some true then { t.1 with a_pressed := false } else t.1
  let s3 := if rd.bHigh = some true then { s2 with b_pressed := false } else s2
  (s3, t.2.1, t.2.2)

/-- Several consecutive loop iterations, with the total number of A-actions
and B-actions performed. -/
def run : MachineState → List Reads → MachineState × Nat × Nat
  | s, [] => (s, 0, 0)
  | s, rd :: rds =>
    let t := step s rd
    let u := run t.1 rds
    (u.1, t.2.1 + u.2.1, t.2.2 + u.2.2)

/-- Reads while button B is held down and A is up: `is_low` is `Ok(true)`
for B and `Ok(false)` for A; `is_high` the reverse. -/
def bHeld : Reads := ⟨some false, some true, some true, some false⟩

/-- Reads while button A is held down and B is up. -/
def aHeld : Reads := ⟨some true, some false, some false, some true⟩

/-- Reads while both buttons are up. -/
def bothUp : Reads := ⟨some false, some false, some true, some true⟩

/-- Reads when every hardware pin read fails (`Err(_)`). -/
def allErr : Reads := ⟨none, none, none, none⟩

/-- A concrete machine state: paused with a stale pending tick event. -/
def pausedPending : MachineState :=
  { state := State.Paused, a_pressed := false, b_pressed := false,
    automata := fun _ _ => 0, seed := 39333, counterEnabled := false,
    eventPending := true, image := fun _ _ => 0, displayed := fun _ _ => 0 }

/-- A concrete machine state: running, both latches clear. -/
def runningClear : MachineState :=
  { state := State.Running, a_pressed := false, b_pressed := false,
    automata := fun r c => if r = 2 ∧ c = 2 then 1 else 0, seed := 39333,
    counterEnabled := true, eventPending := false,
    image := fun r c => if r = 2 ∧ c = 2 then 1 else 0,
    displayed := fun _ _ => 0 }

lemma finRange5 : List.finRange 5 = [0, 1, 2, 3, 4] := by decide

/-- Extracting bit `k` of `n` with a power-of-two mask: the source's
`((square & mask) >> k) as u8` equals the plain bit `(n >> k) % 2`. -/
lemma mask_bit (n k m : Nat) (hm : 2 ^ k = m) :
    ((n &&& m) >>> k) % 256 = (n >>> k) % 2 := by
  subst hm
  rw [Nat.and_two_pow]
  rcases h : n.testBit k with _ | _
  · have hd : n / 2 ^ k % 2 ≠ 1 := by
      intro hc
      rw [Nat.testBit_to_div_mod] at h
      simp [hc] at h
    simp [h, Nat.shiftRight_eq_div_pow]
    omega
  · have hd : n / 2 ^ k % 2 = 1 := by
      rw [Nat.testBit_to_div_mod] at h
      simpa using h
    have hp : (0 : Nat) < 2 ^ k := Nat.pos_pow_of_pos k (by norm_num)
    simp [h, Nat.shiftRight_eq_div_pow, Nat.div_self hp]
    omega

/-- Every cell of the seeder's grid is bit `5*r + c` of `square`. -/
lemma rand_grid_cell (sq : Nat) (r c : Fin 5) :
    rand_grid sq r c = (sq >>> (5 * r.val + c.val)) % 2 := by
  fin_cases r <;> fin_cases c <;>
    simp +decide [rand_grid, cellIndices, finRange5, rand_loop, writeCell] <;>
    first
    | omega
    | exact mask_bit _ _ _ (by norm_num)

/-- Snapshot characterization of `update_automata`: each output cell is the
transition function applied to the input grid's cell and neighbor array. -/
lemma update_automata_apply (automata : Grid) (f : Nat → List Nat → Nat) (row col : Fin 5) :
    update_automata automata f row col = f (automata row col) (neighbors automata row col) := by
  fin_cases row <;> fin_cases col <;>
    simp +decide [update_automata, finRange5, writeCell]

/-- `conway_transitions` never returns anything but 0 or 1. -/
lemma conway_transitions_le_one (cell : Nat) (ns : List Nat) :
    conway_transitions cell ns ≤ 1 := by
  simp only [conway_transitions]
  split <;> omega

/-- C2: `conway_transitions` does NOT implement the standard Game of Life
rule.  The match arm `(_, 2..=3) => 1` also matches a dead cell, so a dead
cell with exactly 2 alive neighbors is born.  This theorem evaluates the
code at the failing input: the standard rule (and the claim) demand 0
there, but the code returns 1. -/
theorem C2_dead_cell_with_two_neighbors_is_born :
    conway_transitions 0 [1, 1, 0, 0, 0, 0, 0, 0] = 1 ∧
      ¬((0 : Nat) ≠ 0 ∧ (liveCount [1, 1, 0, 0, 0, 0, 0, 0] = 2 ∨
            liveCount [1, 1, 0, 0, 0, 0, 0, 0] = 3)) ∧
      ¬((0 : Nat) = 0 ∧ liveCount [1, 1, 0, 0, 0, 0, 0, 0] = 3) := by
  decide

/-- C3: `conway_transitions` matches the spec's formula exactly: the next
value is alive (1) iff (cell currently dead and exactly 3 live neighbors)
or (2 or 3 live neighbors regardless of the current cell), dead (0)
otherwise. -/
theorem C3_conway_matches_spec_formula (cell : Nat) (ns : List Nat)
    (_h : ns.length = 8) :
    conway_transitions cell ns =
      if (cell = 0 ∧ liveCount ns = 3) ∨ (liveCount ns = 2 ∨ liveCount ns = 3)
      then 1 else 0 := by
  have key : ∀ c k : Nat,
      (match c, k with
        | 0, 3 => (1 : Nat)
        | _, 2 => 1
        | _, 3 => 1
        | _, _ => 0) =
        if (c = 0 ∧ k = 3) ∨ (k = 2 ∨ k = 3) then 1 else 0 := by
    intro c k
    rcases c with _ | c <;> rcases k with _ | _ | _ | _ | k <;> simp
  simp only [conway_transitions, liveCount]
  exact key cell _

theorem C3_conway_matches_spec_formula_witness :
    ([1, 1, 0, 0, 0, 0, 0, 0] : List Nat).length = 8 ∧
      conway_transitions 0 [1, 1, 0, 0, 0, 0, 0, 0] =
        if ((0 : Nat) = 0 ∧ liveCount [1, 1, 0, 0, 0, 0, 0, 0] = 3) ∨
            (liveCount [1, 1, 0, 0, 0, 0, 0, 0] = 2 ∨
              liveCount [1, 1, 0, 0, 0, 0, 0, 0] = 3)
        then 1 else 0 :=
  ⟨by decide, C3_conway_matches_spec_formula 0 [1, 1, 0, 0, 0, 0, 0, 0] (by decide)⟩

/-- C4: snapshot isolation of `update_automata`: for every grid and every
rule, every output cell equals the rule applied to the input cell and the
neighbor array read from the pre-advance snapshot; no output cell depends
on an already-updated value of the same call. -/
theorem C4_snapshot_isolation (G : Grid) (F : Nat → List Nat → Nat) (row col : Fin 5) :
    update_automata G F row col = F (G row col) (neighbors G row col) :=
  update_automata_apply G F row col

/-- C5: toroidal neighbor addressing: the neighbor array always has exactly
8 entries, in the fixed order top-left, top, top-right, left, right,
bottom-left, bottom, bottom-right with previous index `(i + 4) % 5` and
next index `(i + 1) % 5`, and the top-left neighbor of cell (0,0) is cell
(4,4). -/
theorem C5_toroidal_neighbors (g : Grid) (r c : Fin 5) :
    (neighbors g r c).length = 8 ∧
    neighbors g r c =
      [ g (prevIdx r) (prevIdx c), g (prevIdx r) c, g (prevIdx r) (nextIdx c),
        g r (prevIdx c), g r (nextIdx c),
        g (nextIdx r) (prevIdx c), g (nextIdx r) c, g (nextIdx r) (nextIdx c) ] ∧
    (neighbors g 0 0).head? = some (g 4 4) :=
  ⟨rfl, rfl, rfl⟩

/-- C6: the seeder is a pure function of the prior 16-bit seed: the cell at
row `r`, column `c` is bit `5*r + c` of the 32-bit square of the seed (so
every cell is 0 or 1), and the new seed is bits 8..23 of the square
(`(square / 2^8) % 2^16`).  Determinism and independence from the current
automaton grid hold by construction: `random_automata` takes only the seed. -/
theorem C6_seeder_spec (seed : Nat) (h : seed < 65536) :
    (∀ r c : Fin 5,
        (random_automata seed).1 r c = ((seed * seed) >>> (5 * r.val + c.val)) % 2) ∧
    (∀ r c : Fin 5, (random_automata seed).1 r c ≤ 1) ∧
    (random_automata seed).2 = ((seed * seed) / 256) % 65536 := by
  have hlt : seed * seed < 4294967296 := by nlinarith
  have hsq : (seed * seed) % 4294967296 = seed * seed := Nat.mod_eq_of_lt hlt
  have hcell : ∀ r c : Fin 5,
      (random_automata seed).1 r c = ((seed * seed) >>> (5 * r.val + c.val)) % 2 := by
    intro r c
    simp only [random_automata, hsq]
    exact rand_grid_cell (seed * seed) r c
  refine ⟨hcell, fun r c => ?_, ?_⟩
  · rw [hcell r c]
    omega
  · simp only [random_automata]
    omega

theorem C6_seeder_spec_witness :
    39333 < 65536 ∧ (random_automata 39333).2 = ((39333 * 39333) / 256) % 65536 :=
  ⟨by norm_num, (C6_seeder_spec 39333 (by norm_num)).2.2⟩

/-- C10: every grid the program produces is 0/1-valued: the seeder yields
only 0/1 cells for every seed, `update_automata` with `conway_transitions`
yields only 0/1 cells for arbitrary `u8` input cells, and scaling a 0/1
cell by brightness 7 in `draw` yields exactly 0 or 7 with no `u8` wrap. -/
theorem C10_grids_are_binary :
    (∀ seed : Nat, ∀ r c : Fin 5, (random_automata seed).1 r c ≤ 1) ∧
    (∀ G : Grid, ∀ r c : Fin 5, update_automata G conway_transitions r c ≤ 1) ∧
    (∀ v : Nat, v ≤ 1 → (v * 7) % 256 = v * 7 ∧ (v * 7 = 0 ∨ v * 7 = 7)) ∧
    (∀ G : Grid, (∀ r c : Fin 5, G r c ≤ 1) →
      ∀ r c : Fin 5, draw G 7 r c = 0 ∨ draw G 7 r c = 7) := by
  refine ⟨fun seed r c => ?_, fun G r c => ?_, fun v hv => ?_, fun G hG r c => ?_⟩
  · simp only [random_automata, rand_grid_cell]
    omega
  · rw [update_automata_apply]
    exact conway_transitions_le_one _ _
  · rcases Nat.le_one_iff_eq_zero_or_eq_one.mp hv with h | h <;> simp [h]
  · rcases Nat.le_one_iff_eq_zero_or_eq_one.mp (hG r c) with h | h <;>
      simp [draw, h]

theorem C10_grids_are_binary_witness :
    (1 : Nat) ≤ 1 ∧ ((1 * 7) % 256 = 1 * 7 ∧ ((1 : Nat) * 7 = 0 ∨ (1 : Nat) * 7 = 7)) :=
  ⟨by norm_num, C10_grids_are_binary.2.2.1 1 (by norm_num)⟩

/-- With button B held (`bHeld`), an iteration on a state whose B latch is
already set performs no action and only clears the A latch (A reads
released). -/
lemma step_bHeld_latched (s : MachineState) (h : s.b_pressed = true) :
    step s bHeld = ({ s with a_pressed := false }, 0, 0) := by
  rcases hs : s.state <;> simp [step, bHeld, hs, h]

/-- While the B latch stays set, any number of B-held iterations performs
no B action. -/
lemma run_bHeld_latched (n : Nat) (s : MachineState) (h : s.b_pressed = true) :
    (run s (List.replicate n bHeld)).2.2 = 0 := by
  induction n generalizing s with
  | zero => simp [run]
  | succ m ih =>
    rw [List.replicate_succ]
    simp only [run, step_bHeld_latched s h]
    have := ih { s with a_pressed := false } h
    omega

/-- The first B-held iteration from an unlatched state performs the B
action exactly once and sets the latch. -/
lemma step_bHeld_first (s : MachineState) (h : s.b_pressed = false) :
    (step s bHeld).2.2 = 1 ∧ (step s bHeld).1.b_pressed = true := by
  rcases hs : s.state <;> simp [step, bHeld, hs, h]

/-- With button A held (`aHeld`), an iteration on a state whose A latch is
already set performs no action and only clears the B latch. -/
lemma step_aHeld_latched (s : MachineState) (h : s.a_pressed = true) :
    step s aHeld = ({ s with b_pressed := false }, 0, 0) := by
  rcases hs : s.state <;> simp [step, aHeld, hs, h]

/-- While the A latch stays set, any number of A-held iterations performs
no A action. -/
lemma run_aHeld_latched (n : Nat) (s : MachineState) (h : s.a_pressed = true) :
    (run s (List.replicate n aHeld)).2.1 = 0 := by
  induction n generalizing s with
  | zero => simp [run]
  | succ m ih =>
    rw [List.replicate_succ]
    simp only [run, step_aHeld_latched s h]
    have := ih { s with b_pressed := false } h
    omega

/-- The first A-held iteration from an unlatched state performs the A
action exactly once and sets the latch. -/
lemma step_aHeld_first (s : MachineState) (h : s.a_pressed = false) :
    (step s aHeld).2.1 = 1 ∧ (step s aHeld).1.a_pressed = true := by
  rcases hs : s.state <;> simp [step, aHeld, hs, h]

/-- An iteration with both buttons up performs no B action and leaves the
B latch cleared (the bottom `is_high` check clears it). -/
lemma step_bothUp (s : MachineState) :
    (step s bothUp).2.2 = 0 ∧ (step s bothUp).1.b_pressed = false := by
  rcases hs : s.state <;> simp [step, bothUp, hs]

/-- C7: debounce exactly-once.  From a state with clear latches, a button
read as pressed for N consecutive polling iterations (any N ≥ 1) with no
intervening released reading triggers its action exactly once — shown for
each button independently — and a pressed, released, pressed sequence
triggers the action exactly twice.  The latch is set when the press is
first acted upon and cleared only when the button reads released. -/
theorem C7_debounce (s : MachineState) (N : Nat) (hN : 1 ≤ N)
    (ha : s.a_pressed = false) (hb : s.b_pressed = false) :
    (run s (List.replicate N bHeld)).2.2 = 1 ∧
    (run s (List.replicate N aHeld)).2.1 = 1 ∧
    (run s [bHeld, bothUp, bHeld]).2.2 = 2 := by
  obtain ⟨m, rfl⟩ : ∃ m, N = m + 1 := ⟨N - 1, by omega⟩
  refine ⟨?_, ?_, ?_⟩
  · rw [List.replicate_succ]
    simp only [run]
    rw [(step_bHeld_first s hb).1, run_bHeld_latched m _ (step_bHeld_first s hb).2]
  · rw [List.replicate_succ]
    simp only [run]
    rw [(step_aHeld_first s ha).1, run_aHeld_latched m _ (step_aHeld_first s ha).2]
  · simp only [run]
    rw [(step_bHeld_first s hb).1]
    rw [(step_bothUp (step s bHeld).1).1]
    rw [(step_bHeld_first _ (step_bothUp (step s bHeld).1).2).1]

/-- Witness for C7 at a concrete running state and N = 3. -/
theorem C7_debounce_witness :
    1 ≤ 3 ∧ runningClear.a_pressed = false ∧ runningClear.b_pressed = false ∧
      ((run runningClear (List.replicate 3 bHeld)).2.2 = 1 ∧
       (run runningClear (List.replicate 3 aHeld)).2.1 = 1 ∧
       (run runningClear [bHeld, bothUp, bHeld]).2.2 = 2) :=
  ⟨by norm_num, rfl, rfl, C7_debounce runningClear 3 (by norm_num) rfl rfl⟩

/-- C1 (amended): on a button-A edge while Paused the run-state becomes
Running and the timer counter is re-enabled, but the handler does NOT
clear the pending tick event at that moment — the pending-event flag is
left exactly as it was.  (The event is instead cleared when entering
Paused and by the B-step handler.) -/
theorem C1_resume_amended (s : MachineState) (rd : Reads)
    (hs : s.state = State.Paused) (ha : s.a_pressed = false)
    (hal : rd.aLow = some true) (hbl : rd.bLow = some false) :
    (step s rd).1.state = State.Running ∧
    (step s rd).1.counterEnabled = true ∧
    (step s rd).1.eventPending = s.eventPending := by
  rcases rd with ⟨al, bl, ah, bh⟩
  simp only at hal hbl
  subst hal hbl
  rcases ah with _ | (_ | _) <;> rcases bh with _ | (_ | _) <;>
    simp [step, hs, ha]

/-- Witness for the amended C1 at a concrete paused state. -/
theorem C1_resume_amended_witness :
    pausedPending.state = State.Paused ∧ pausedPending.a_pressed = false ∧
      aHeld.aLow = some true ∧ aHeld.bLow = some false ∧
      ((step pausedPending aHeld).1.state = State.Running ∧
       (step pausedPending aHeld).1.counterEnabled = true ∧
       (step pausedPending aHeld).1.eventPending = pausedPending.eventPending) :=
  ⟨rfl, rfl, rfl, rfl, C1_resume_amended pausedPending aHeld rfl rfl rfl rfl⟩

/-- C1 counterexample to the claim as stated: resuming from a paused state
with a stale pending tick event re-enables the counter and enters Running
while the pending event flag is STILL set afterwards — so the pending
event is not "explicitly cleared before the timer counter is re-enabled". -/
theorem C1_resume_counterexample :
    (step pausedPending aHeld).1.state = State.Running ∧
    (step pausedPending aHeld).1.counterEnabled = true ∧
    (step pausedPending aHeld).1.eventPending = true ∧
    pausedPending.eventPending = true :=
  ⟨rfl, rfl, rfl, rfl⟩

/-- C8: on a button-B edge while Paused (B unlatched, B reads pressed, A
reads not pressed), exactly one generation advance with the Conway rule is
applied to the current grid, the result is stored into the shared image
and rendered immediately, the run-state stays Paused, and the timer
counter flag is left untouched (in particular it stays disabled). -/
theorem C8_manual_step (s : MachineState) (rd : Reads)
    (hs : s.state = State.Paused) (hb : s.b_pressed = false)
    (hbl : rd.bLow = some true) (hal : rd.aLow = some false) :
    (step s rd).1.automata = update_automata s.automata conway_transitions ∧
    (step s rd).1.image = update_automata s.automata conway_transitions ∧
    (step s rd).1.displayed = draw (update_automata s.automata conway_transitions) 7 ∧
    (step s rd).1.state = State.Paused ∧
    (step s rd).1.counterEnabled = s.counterEnabled ∧
    (step s rd).2.2 = 1 := by
  rcases rd with ⟨al, bl, ah, bh⟩
  simp only at hal hbl
  subst hal hbl
  rcases ah with _ | (_ | _) <;> rcases bh with _ | (_ | _) <;>
    simp [step, hs, hb]

/-- Witness for C8 at a concrete paused state with B held. -/
theorem C8_manual_step_witness :
    pausedPending.state = State.Paused ∧ pausedPending.b_pressed = false ∧
      bHeld.bLow = some true ∧ bHeld.aLow = some false ∧
      ((step pausedPending bHeld).1.automata =
          update_automata pausedPending.automata conway_transitions ∧
       (step pausedPending bHeld).1.image =
          update_automata pausedPending.automata conway_transitions ∧
       (step pausedPending bHeld).1.displayed =
          draw (update_automata pausedPending.automata conway_transitions) 7 ∧
       (step pausedPending bHeld).1.state = State.Paused ∧
       (step pausedPending bHeld).1.counterEnabled = pausedPending.counterEnabled ∧
       (step pausedPending bHeld).2.2 = 1) :=
  ⟨rfl, rfl, rfl, rfl, C8_manual_step pausedPending bHeld rfl rfl rfl rfl⟩

/-- C9: failed button reads are treated as not pressed.  When every
hardware read errors, the whole iteration is a no-op: the machine state
(run-state, grid, seed, latches, timer flags, image, frame) is returned
unchanged and no action runs; no error is propagated (the step function is
total).  Moreover a failed `is_low` read of either button alone ensures
that button's action does not run this iteration. -/
theorem C9_failed_reads (s : MachineState) (rd : Reads) :
    step s allErr = (s, 0, 0) ∧
    (rd.aLow = none → (step s rd).2.1 = 0) ∧
    (rd.bLow = none → (step s rd).2.2 = 0) := by
  refine ⟨?_, fun h => ?_, fun h => ?_⟩
  · rcases hs : s.state <;> simp [step, allErr, hs]
  · rcases hs : s.state <;> simp [step, hs, h]
  · rcases hs : s.state <;> simp [step, hs, h]

/-- Witness for C9 at a concrete paused state. -/
theorem C9_failed_reads_witness :
    allErr.aLow = none ∧ allErr.bLow = none ∧
      (step pausedPending allErr = (pausedPending, 0, 0) ∧
       (step pausedPending allErr).2.1 = 0 ∧
       (step pausedPending allErr).2.2 = 0) :=
  ⟨rfl, rfl, (C9_failed_reads pausedPending allErr).1,
    (C9_failed_reads pausedPending allErr).2.1 rfl,
    (C9_failed_reads pausedPending allErr).2.2 rfl⟩

end MicroBit
